import Mathlib

/-
Verification of the doctor-testerson doctest driver
(src/doctor_testerson/__init__.py) against its natural-language
specification.

The embedding below models the driver's pure control flow directly from the
source.  External collaborators (the filesystem, Path.resolve, import_module,
doctest.testmod/testfile and the monotonic clock) are modelled as an explicit
environment value `Env`; Python exceptions are modelled as `Except Err`
values, with `Err` carrying the information of the exception raised at each
`raise` site.  Filesystem paths are lists of path components measured from
the filesystem root; elapsed times are nanosecond counts (`Nat`).
-/

namespace DoctorTesterson

/-- doctest.TestResults: the pair of counters returned by the doctest engine
for one target (number of examples attempted and number failed). -/
structure TestResults where
  attempted : Nat
  failed : Nat
deriving DecidableEq

/-- The exceptions the driver can raise, modelled structurally:
`notAFile` is the `raise Exception` in resolve_target (line 168),
`noPackageRoot` is the `raise Exception` in to_module_name (line 149), and
`loadError` models import_module failing for a module name. -/
inductive Err where
  | notAFile (target : String)
  | noPackageRoot (file_path : List String)
  | loadError (module_name : String)
deriving DecidableEq

/-- Filesystem model: finite sets of regular-file paths and directory paths.
A path is the list of its components from the filesystem root, so the root
directory itself is `[]`. -/
structure FS where
  files : List (List String)
  dirs : List (List String)
deriving DecidableEq

/-- Path.is_file: the path names an existing regular file. -/
def FS.isFile (fs : FS) (p : List String) : Bool :=
  decide (p ∈ fs.files)

/-- Path.exists: the path names an existing filesystem entry. -/
def FS.pathExists (fs : FS) (p : List String) : Bool :=
  decide (p ∈ fs.files) || decide (p ∈ fs.dirs)

def POETRY_FILENAME : String := "pyproject.toml"

def SETUP_FILENAME : String := "setup.py"

/-- is_poetry_root (line 129): the directory contains a pyproject.toml file. -/
def is_poetry_root (fs : FS) (dir : List String) : Bool :=
  fs.isFile (dir ++ [POETRY_FILENAME])

/-- is_setup_py_root (line 133): the directory contains setup.py but no
__init__.py. -/
def is_setup_py_root (fs : FS) (dir : List String) : Bool :=
  fs.isFile (dir ++ [SETUP_FILENAME]) && !(fs.isFile (dir ++ ["__init__.py"]))

/-- is_package_root (line 139). -/
def is_package_root (fs : FS) (dir : List String) : Bool :=
  is_poetry_root fs dir || is_setup_py_root fs dir

/-- Index of the last occurrence of a character in a list of characters. -/
def lastIdxOf (c : Char) (cs : List Char) : Option Nat :=
  ((cs.enum.filter (fun p => p.2 == c)).getLast?).map (fun p => p.1)

/-- pathlib PurePath.stem on a single path component: the component without
its suffix.  The suffix is the part from the last dot on, and only counts
when that dot is neither the first nor the last character of the name. -/
def fileStem (name : String) : String :=
  let cs := name.toList
  match lastIdxOf '.' cs with
  | none => name
  | some i => if 0 < i ∧ i < cs.length - 1 then String.mk (cs.take i) else name

/-- pathlib PurePath.suffix of the final component of a path (empty when the
final component has no extension). -/
def fileSuffix (name : String) : String :=
  let cs := name.toList
  match lastIdxOf '.' cs with
  | none => ""
  | some i => if 0 < i ∧ i < cs.length - 1 then String.mk (cs.drop i) else ""

/-- The upward walk of to_module_name (lines 144-153): starting at `dir`,
return the first directory among `dir`, its parent, ..., the filesystem root
that is a package root; raise when the walk reaches the root (a directory
whose parent is itself, here `[]`) without finding one.  `file_path` is only
used in the error, mirroring the message of the Python exception. -/
def findPackageRoot (fs : FS) (file_path : List String) (dir : List String) :
    Except Err (List String) :=
  if is_package_root fs dir then .ok dir
  else if h : dir = [] then .error (.noPackageRoot file_path)
  else findPackageRoot fs file_path dir.dropLast
termination_by dir.length
decreasing_by
  simp only [List.length_dropLast]
  exact Nat.sub_lt (List.length_pos.mpr h) Nat.one_pos

/-- to_module_name (lines 143-156): walk up from the file's directory to a
package root, then dot-join the components of the file's path relative to
that root, with the file name replaced by its stem. -/
def to_module_name (fs : FS) (file_path : List String) : Except Err String :=
  match findPackageRoot fs file_path file_path.dropLast with
  | .error e => .error e
  | .ok dir =>
    let rel := file_path.drop dir.length
    .ok (String.intercalate "." (rel.dropLast ++ [fileStem (rel.getLastD "")]))

/-- The tagged union returned by resolve_target. -/
inductive ResolvedTarget where
  | module (name : String)
  | textFile (path : List String)
deriving DecidableEq

/-- The external collaborators of the driver, collected in one record:
the filesystem, Path(target).resolve(), and the two doctest entry points
(each bundled with the surrounding monotonic-clock measurement, returning
the counters together with the elapsed nanoseconds; testmod is preceded by
import_module, whose failure is the `Err.loadError` case). -/
structure Env where
  fs : FS
  resolvePath : String → List String
  runModule : String → Nat → Except Err (TestResults × Nat)
  runTextFile : List String → Nat → TestResults × Nat

/-- The doctest engine's documented contract: the failed counter counts a
subset of the attempted examples, so failed never exceeds attempted. -/
def Env.Wf (env : Env) : Prop :=
  (∀ name flags tr dt, env.runModule name flags = .ok (tr, dt) →
    tr.failed ≤ tr.attempted) ∧
  (∀ p flags, (env.runTextFile p flags).1.failed ≤
    (env.runTextFile p flags).1.attempted)

/-- resolve_target (lines 159-175). -/
def resolve_target (env : Env) (target : String) : Except Err ResolvedTarget :=
  let path := env.resolvePath target
  if !(env.fs.pathExists path) then .ok (.module target)
  else if !(env.fs.isFile path) then .error (.notAFile target)
  else if fileSuffix (path.getLastD "") == ".py" then
    match to_module_name env.fs path with
    | .error e => .error e
    | .ok name => .ok (.module name)
  else .ok (.textFile path)

/-- One row of the final report: ModuleResult (line 31) or TextFileResult
(line 48).  The live module object of ModuleResult carries no information
used by the driver and is omitted; delta_t is elapsed nanoseconds. -/
inductive RunResult where
  | moduleResult (target : String) (module_name : String) (delta_t : Nat)
      (tests : TestResults)
  | textFileResult (target : String) (file_path : List String) (delta_t : Nat)
      (tests : TestResults)
deriving DecidableEq

def RunResult.target : RunResult → String
  | .moduleResult t _ _ _ => t
  | .textFileResult t _ _ _ => t

def RunResult.delta_t : RunResult → Nat
  | .moduleResult _ _ d _ => d
  | .textFileResult _ _ d _ => d

def RunResult.tests : RunResult → TestResults
  | .moduleResult _ _ _ tr => tr
  | .textFileResult _ _ _ tr => tr

/-- tests_passed (lines 43-45 and 59-61): attempted - failed, computed in
Python's unbounded integers. -/
def RunResult.tests_passed (r : RunResult) : Int :=
  (r.tests.attempted : Int) - (r.tests.failed : Int)

/-- The parsed command-line options (build_parser, lines 81-122): verbose is
a count, fail_fast and panel default to False, empty defaults to None and is
set to True by -e and False by -E, targets is the positional list. -/
structure Args where
  verbose : Nat
  fail_fast : Bool
  empty : Option Bool
  panel : Bool
  targets : List String
deriving DecidableEq

/-- doctest.NORMALIZE_WHITESPACE (the third registered option flag). -/
def NORMALIZE_WHITESPACE : Nat := 4

/-- doctest.ELLIPSIS (the fourth registered option flag). -/
def ELLIPSIS : Nat := 8

/-- doctest.FAIL_FAST (the eleventh registered option flag). -/
def FAIL_FAST : Nat := 1024

/-- The option flags computed in test_target (lines 208-211). -/
def option_flags (args : Args) : Nat :=
  let flags := NORMALIZE_WHITESPACE ||| ELLIPSIS
  if args.fail_fast = true then flags ||| FAIL_FAST else flags

/-- test_module (lines 225-238): import the module and run doctest.testmod
over it, timing the run. -/
def test_module (env : Env) (target : String) (module_name : String)
    (flags : Nat) : Except Err RunResult :=
  match env.runModule module_name flags with
  | .error e => .error e
  | .ok (tests, delta_t) => .ok (.moduleResult target module_name delta_t tests)

/-- test_text_file (lines 241-257): run doctest.testfile, timing the run. -/
def test_text_file (env : Env) (target : String) (file_path : List String)
    (flags : Nat) : RunResult :=
  let (tests, delta_t) := env.runTextFile file_path flags
  .textFileResult target file_path delta_t tests

/-- test_target (lines 194-222): compute the option flags, resolve the
target, and dispatch on its kind (the flag computation is pure, so inlining
it at the two call sites is equivalent to the source's single assignment). -/
def test_target (env : Env) (target : String) (args : Args) :
    Except Err RunResult :=
  match resolve_target env target with
  | .error e => .error e
  | .ok (.module name) => test_module env target name (option_flags args)
  | .ok (.textFile p) => .ok (test_text_file env target p (option_flags args))

/-- The filter condition of test_targets (lines 184-188), written as the
same three-way boolean disjunction over args.empty. -/
def keepResult (empty : Option Bool) (r : RunResult) : Bool :=
  empty == none
    || (empty == some true && r.tests.attempted == 0)
    || (empty == some false && r.tests.attempted != 0)

/-- The loop body of test_targets (lines 181-189) over an explicit list of
remaining targets: run each target in order, appending its result when the
filter keeps it.  An exception from any test_target call propagates,
aborting the whole traversal, exactly as in Python. -/
def test_targets_go (env : Env) (args : Args) :
    List String → Except Err (List RunResult)
  | [] => .ok []
  | t :: ts =>
    match test_target env t args with
    | .error e => .error e
    | .ok r =>
      match test_targets_go env args ts with
      | .error e => .error e
      | .ok rest =>
        if keepResult args.empty r then .ok (r :: rest) else .ok rest

/-- test_targets (lines 178-191). -/
def test_targets (env : Env) (args : Args) : Except Err (List RunResult) :=
  test_targets_go env args args.targets

/-- has_errors (lines 264-265). -/
def has_errors (results : List RunResult) : Bool :=
  results.any (fun r => decide (r.tests.failed > 0))

/-- The exit code of main (lines 295-305): run all targets, then exit 1 when
fail-fast is set and some reported result has failures, and 0 otherwise (the
table printing that follows does not change the exit code).  An uncaught
exception is the `.error` case. -/
def main (env : Env) (args : Args) : Except Err Nat :=
  match test_targets env args with
  | .error e => .error e
  | .ok results =>
    if args.fail_fast && has_errors results then .ok 1 else .ok 0

/-- The four running totals of main (lines 332-341); delta_t in nanoseconds
with zero start, matching Qty(0, ms) = 0. -/
structure Totals where
  delta_t : Nat
  attempted : Nat
  passed : Int
  failed : Nat
deriving DecidableEq

/-- One iteration of the totals loop (lines 337-341). -/
def addResult (acc : Totals) (r : RunResult) : Totals :=
  ⟨acc.delta_t + r.delta_t, acc.attempted + r.tests.attempted,
    acc.passed + r.tests_passed, acc.failed + r.tests.failed⟩

/-- The totals loop of main (lines 332-341) as a fold from all-zero totals. -/
def aggregate (results : List RunResult) : Totals :=
  results.foldl addResult ⟨0, 0, 0, 0⟩

/-- rich.text.Text values produced by percent, keeping only the style and
the string. -/
inductive RichText where
  | dim (s : String)
  | boldGreen (s : String)
  | boldRed (s : String)
deriving DecidableEq

/-- Python round: round half to even. -/
def roundHalfEven (q : ℚ) : ℤ :=
  let f := ⌊q⌋
  let frac := q - (f : ℚ)
  if frac < 1 / 2 then f
  else if 1 / 2 < frac then f + 1
  else if f % 2 = 0 then f else f + 1

/-- percent (lines 68-78), with real arithmetic modelled exactly as
rationals: a dim dash when the denominator is zero, otherwise the rounded
percentage, green at exactly 100 and red otherwise. -/
def percent (numerator denominator : ℚ) : RichText :=
  if denominator = 0 then .dim "-"
  else
    let number := roundHalfEven (numerator / denominator * 100)
    let string := toString number ++ "%"
    if number = 100 then .boldGreen string else .boldRed string

/-! Concrete instances used as witnesses and counterexamples. -/

/-- A project tree rooted at the filesystem root: a pyproject.toml manifest
in the root directory, and the file /pkg/sub/mod.py two directories below. -/
def fsW : FS :=
  ⟨[["pyproject.toml"], ["pkg", "sub", "mod.py"]], [[], ["pkg"], ["pkg", "sub"]]⟩

/-- A tree holding the file /a/mod.py with no package root anywhere. -/
def fsN : FS := ⟨[["a", "mod.py"]], [[], ["a"]]⟩

/-- An environment whose filesystem holds a single directory named d; every
module runs one example with no failures. -/
def envDir : Env :=
  ⟨⟨[], [["d"]]⟩, fun t => [t], fun _ _ => .ok (⟨1, 0⟩, 1),
    fun _ _ => (⟨0, 0⟩, 0)⟩

/-- Two targets; the second names the directory and so fails to resolve. -/
def argsAbort : Args := ⟨0, false, none, false, ["m", "d"]⟩

/-- An empty filesystem (every target is treated as a module name); module m
runs two examples, one of which fails. -/
def envOk : Env :=
  ⟨⟨[], []⟩, fun t => [t], fun _ _ => .ok (⟨2, 1⟩, 5), fun _ _ => (⟨0, 0⟩, 0)⟩

/-- A single module target m with no filtering and fail-fast off. -/
def argsOk : Args := ⟨0, false, none, false, ["m"]⟩

/-- An empty filesystem where module bad has one failing example and every
other module has one passing example. -/
def envFF : Env :=
  ⟨⟨[], []⟩, fun t => [t],
    fun name _ => if name == "bad" then .ok (⟨1, 1⟩, 1) else .ok (⟨1, 0⟩, 1),
    fun _ _ => (⟨0, 0⟩, 0)⟩

/-- Targets bad then good, with fail-fast enabled and no filtering. -/
def argsFF : Args := ⟨0, true, none, false, ["bad", "good"]⟩

/-- Targets bad then good, reporting only empty targets. -/
def argsFilter : Args := ⟨0, false, some true, false, ["bad", "good"]⟩

/-- An empty filesystem where every module runs three examples, one of which
fails. -/
def envExit : Env :=
  ⟨⟨[], []⟩, fun t => [t], fun _ _ => .ok (⟨3, 1⟩, 1), fun _ _ => (⟨0, 0⟩, 0)⟩

/-- One target, fail-fast enabled, reporting only empty targets. -/
def argsExit : Args := ⟨0, true, some true, false, ["m"]⟩

/-- One target, fail-fast enabled, no filtering. -/
def argsExitAll : Args := ⟨0, true, none, false, ["m"]⟩

end DoctorTesterson

namespace DoctorTesterson

/-! Helper lemmas about the package-root walk. -/

/-- When some initial segment of dir is a package root and no longer initial
segment is one, the walk stops exactly at that segment (the walk visits the
initial segments from the longest down, so it finds the nearest package-root
ancestor).  The outer bound n supports the induction. -/
lemma findPackageRoot_found (fs : FS) (fp : List String) :
    ∀ (n : Nat) (dir : List String), dir.length ≤ n →
    ∀ k, k ≤ dir.length → is_package_root fs (dir.take k) = true →
    (∀ j, j ≤ dir.length → k < j → is_package_root fs (dir.take j) = false) →
    findPackageRoot fs fp dir = .ok (dir.take k) := by
  intro n
  induction n with
  | zero =>
    intro dir hlen k hk hroot _
    have hd : dir = [] := List.length_eq_zero.mp (Nat.le_zero.mp hlen)
    subst hd
    have hk0 : k = 0 := Nat.le_zero.mp hk
    subst hk0
    rw [findPackageRoot]
    simp only [List.take_nil] at hroot
    simp [hroot]
  | succ n ih =>
    intro dir hlen k hk hroot hmax
    by_cases hall : is_package_root fs dir = true
    · have hkl : k = dir.length := by
        by_contra hne
        have hlt : k < dir.length := lt_of_le_of_ne hk hne
        have hfalse := hmax dir.length (le_refl _) hlt
        rw [List.take_length] at hfalse
        rw [hfalse] at hall
        exact Bool.noConfusion hall
      subst hkl
      rw [findPackageRoot]
      simp [hall, List.take_length]
    · have hkl : k < dir.length := by
        rcases Nat.lt_or_ge k dir.length with h | h
        · exact h
        · exfalso
          have hke : k = dir.length := le_antisymm hk h
          rw [hke, List.take_length] at hroot
          exact hall hroot
      have hne : dir ≠ [] := by
        intro hd
        subst hd
        simp at hkl
      have hdl : dir.dropLast = dir.take (dir.length - 1) :=
        List.dropLast_eq_take dir
      have htk : ∀ j, j ≤ dir.length - 1 → dir.dropLast.take j = dir.take j := by
        intro j hj
        rw [hdl, List.take_take]
        congr 1
        omega
      have hlen2 : dir.dropLast.length ≤ n := by
        rw [List.length_dropLast]
        omega
      have hk2 : k ≤ dir.dropLast.length := by
        rw [List.length_dropLast]
        omega
      have hroot2 : is_package_root fs (dir.dropLast.take k) = true := by
        rw [htk k (by omega)]
        exact hroot
      have hmax2 : ∀ j, j ≤ dir.dropLast.length → k < j →
          is_package_root fs (dir.dropLast.take j) = false := by
        intro j hj hkj
        rw [List.length_dropLast] at hj
        rw [htk j hj]
        exact hmax j (by omega) hkj
      have hrec := ih dir.dropLast hlen2 k hk2 hroot2 hmax2
      rw [findPackageRoot]
      simp only [hall, Bool.false_eq_true, if_false, hne, dite_false]
      rw [hrec]
      rw [htk k (by omega)]

/-- When no initial segment of dir is a package root, the walk reaches the
filesystem root and raises. -/
lemma findPackageRoot_none (fs : FS) (fp : List String) :
    ∀ (n : Nat) (dir : List String), dir.length ≤ n →
    (∀ j, j ≤ dir.length → is_package_root fs (dir.take j) = false) →
    findPackageRoot fs fp dir = .error (.noPackageRoot fp) := by
  intro n
  induction n with
  | zero =>
    intro dir hlen hnone
    have hd : dir = [] := List.length_eq_zero.mp (Nat.le_zero.mp hlen)
    subst hd
    have h0 := hnone 0 (le_refl _)
    simp only [List.take_nil] at h0
    rw [findPackageRoot]
    simp [h0]
  | succ n ih =>
    intro dir hlen hnone
    have hall : is_package_root fs dir = false := by
      have := hnone dir.length (le_refl _)
      rwa [List.take_length] at this
    by_cases hne : dir = []
    · subst hne
      rw [findPackageRoot]
      simp [hall]
    · have hdl : dir.dropLast = dir.take (dir.length - 1) :=
        List.dropLast_eq_take dir
      have hpos : 0 < dir.length := List.length_pos.mpr hne
      have hnone2 : ∀ j, j ≤ dir.dropLast.length →
          is_package_root fs (dir.dropLast.take j) = false := by
        intro j hj
        rw [List.length_dropLast] at hj
        rw [hdl, List.take_take]
        have hmin : j ⊓ (dir.length - 1) = j := by omega
        rw [hmin]
        exact hnone j (by omega)
      have hlen2 : dir.dropLast.length ≤ n := by
        rw [List.length_dropLast]
        omega
      have hrec := ih dir.dropLast hlen2 hnone2
      rw [findPackageRoot]
      simp only [hall, Bool.false_eq_true, if_false, hne, dite_false]
      exact hrec

/-- Claim C4: for a file dirs/fname whose nearest package-root ancestor is
the initial segment of dirs of length k, to_module_name returns the dotted
join of the remaining directory components and the file stem; when no
ancestor up to the filesystem root is a package root, it raises the
no-package-root error. -/
theorem to_module_name_spec (fs : FS) (dirs : List String) (fname : String) :
    (∀ k, k ≤ dirs.length → is_package_root fs (dirs.take k) = true →
      (∀ j, j ≤ dirs.length → k < j →
        is_package_root fs (dirs.take j) = false) →
      to_module_name fs (dirs ++ [fname]) =
        .ok (String.intercalate "." (dirs.drop k ++ [fileStem fname]))) ∧
    ((∀ j, j ≤ dirs.length → is_package_root fs (dirs.take j) = false) →
      to_module_name fs (dirs ++ [fname]) =
        .error (.noPackageRoot (dirs ++ [fname]))) := by
  have hdrop : (dirs ++ [fname]).dropLast = dirs := List.dropLast_concat
  constructor
  · intro k hk hroot hmax
    have hfound := findPackageRoot_found fs (dirs ++ [fname]) dirs.length dirs
      (le_refl _) k hk hroot hmax
    have hlk : (dirs.take k).length = k := by
      rw [List.length_take]
      omega
    have hdk : (dirs ++ [fname]).drop k = dirs.drop k ++ [fname] :=
      List.drop_append_of_le_length hk
    simp only [to_module_name, hdrop, hfound, hlk, hdk, List.dropLast_concat,
      List.getLastD_concat]
  · intro hnone
    have hfound := findPackageRoot_none fs (dirs ++ [fname]) dirs.length dirs
      (le_refl _) hnone
    simp only [to_module_name, hdrop, hfound]

/-- Witness for C4: in fsW the file /pkg/sub/mod.py, two directories below
the manifest directory, resolves to pkg.sub.mod; in fsN, with no package
root above /a/mod.py, classification raises. -/
theorem to_module_name_spec_witness :
    to_module_name fsW ["pkg", "sub", "mod.py"] = .ok "pkg.sub.mod" ∧
    to_module_name fsN ["a", "mod.py"] =
      .error (.noPackageRoot ["a", "mod.py"]) := by
  constructor
  · have h := (to_module_name_spec fsW ["pkg", "sub"] "mod.py").1 0
      (by decide) (by decide) (by decide)
    have e : String.intercalate "."
        (List.drop 0 ["pkg", "sub"] ++ [fileStem "mod.py"]) = "pkg.sub.mod" :=
      rfl
    rw [e] at h
    exact h
  · exact (to_module_name_spec fsN ["a"] "mod.py").2 (by decide)

end DoctorTesterson

namespace DoctorTesterson

/-! Helper lemmas about the per-target pipeline. -/

/-- A successful test_target run records the supplied target string. -/
lemma target_of_test_target (env : Env) (t : String) (args : Args)
    (r : RunResult) (h : test_target env t args = .ok r) : r.target = t := by
  unfold test_target at h
  split at h
  · exact Except.noConfusion h
  · unfold test_module at h
    split at h
    · exact Except.noConfusion h
    · injection h with h2
      subst h2
      rfl
  · injection h with h2
    subst h2
    rfl

/-- A successful test_target run inherits the doctest counter contract. -/
lemma wf_test_target (env : Env) (hwf : Env.Wf env) (t : String) (args : Args)
    (r : RunResult) (h : test_target env t args = .ok r) :
    r.tests.failed <= r.tests.attempted := by
  unfold test_target at h
  split at h
  · exact Except.noConfusion h
  · unfold test_module at h
    split at h
    · exact Except.noConfusion h
    · rename_i tests delta heq
      injection h with h2
      subst h2
      exact hwf.1 _ _ tests delta heq
  · rename_i p heq
    injection h with h2
    subst h2
    exact hwf.2 p (option_flags args)

/-- Every result in a successful run comes from some test_target call. -/
lemma mem_test_targets_go (env : Env) (args : Args) :
    ∀ (ts : List String) (results : List RunResult) (r : RunResult),
      test_targets_go env args ts = .ok results → r ∈ results →
      ∃ t, test_target env t args = .ok r := by
  intro ts
  induction ts with
  | nil =>
    intro results r h hmem
    injection h with h2
    subst h2
    exact absurd hmem (List.not_mem_nil r)
  | cons t ts ih =>
    intro results r h hmem
    unfold test_targets_go at h
    split at h
    · exact Except.noConfusion h
    · rename_i r0 h1
      split at h
      · exact Except.noConfusion h
      · rename_i rest h2
        split at h
        · injection h with h3
          subst h3
          rcases List.mem_cons.mp hmem with hr | hr
          · subst hr
            exact ⟨t, h1⟩
          · exact ih rest r h2 hr
        · injection h with h3
          subst h3
          exact ih rest r h2 hmem

/-- With no empty-filter the run keeps one result per target, in order. -/
lemma map_target_test_targets_go (env : Env) (args : Args)
    (hempty : args.empty = none) :
    ∀ (ts : List String) (results : List RunResult),
      test_targets_go env args ts = .ok results →
      results.map RunResult.target = ts := by
  intro ts
  induction ts with
  | nil =>
    intro results h
    injection h with h2
    subst h2
    rfl
  | cons t ts ih =>
    intro results h
    unfold test_targets_go at h
    split at h
    · exact Except.noConfusion h
    · rename_i r0 h1
      split at h
      · exact Except.noConfusion h
      · rename_i rest h2
        split at h
        · injection h with h3
          subst h3
          simp only [List.map_cons]
          rw [target_of_test_target env t args r0 h1, ih rest h2]
        · rename_i hkeep
          exfalso
          apply hkeep
          rw [hempty]
          rfl

/-- Changing only the empty option does not change an individual target run. -/
lemma test_target_empty_none (env : Env) (t : String) (args : Args) :
    test_target env t { args with empty := none } = test_target env t args :=
  rfl

/-- The interleaved filtering of the run loop equals filtering the
unfiltered run results afterwards. -/
lemma go_filter (env : Env) (args : Args) :
    ∀ (ts : List String) (all : List RunResult),
      test_targets_go env { args with empty := none } ts = .ok all →
      test_targets_go env args ts = .ok (all.filter (keepResult args.empty)) := by
  intro ts
  induction ts with
  | nil =>
    intro all h
    injection h with h2
    subst h2
    rfl
  | cons t ts ih =>
    intro all h
    unfold test_targets_go at h ⊢
    rw [test_target_empty_none] at h
    split at h
    · exact Except.noConfusion h
    · rename_i r h1
      split at h
      · exact Except.noConfusion h
      · rename_i rest h2
        split at h
        · injection h with h3
          subst h3
          simp only [h1, ih rest h2, List.filter_cons]
          by_cases hk : keepResult args.empty r = true
          · rw [if_pos hk, if_pos hk]
          · rw [if_neg hk, if_neg hk]
        · rename_i hkeep
          exfalso
          apply hkeep
          rfl

/-- The totals fold computes componentwise sums from any accumulator. -/
lemma foldl_addResult :
    ∀ (l : List RunResult) (acc : Totals),
      l.foldl addResult acc =
        ⟨acc.delta_t + (l.map RunResult.delta_t).sum,
          acc.attempted + (l.map (fun r => r.tests.attempted)).sum,
          acc.passed + (l.map RunResult.tests_passed).sum,
          acc.failed + (l.map (fun r => r.tests.failed)).sum⟩ := by
  intro l
  induction l with
  | nil =>
    intro acc
    cases acc
    simp
  | cons r l ih =>
    intro acc
    simp only [List.foldl_cons, List.map_cons, List.sum_cons, ih, addResult,
      Totals.mk.injEq]
    refine ⟨?_, ?_, ?_, ?_⟩ <;> omega

end DoctorTesterson

namespace DoctorTesterson

/-- Claim C1 (amended): when the empty filter is disabled and the run
completes without a target-level error, the report holds exactly one result
per supplied target, in order; a ResolutionError or LoadError instead makes
the whole run fail (the counterexample shows no per-target recovery). -/
theorem one_result_per_target (env : Env) (args : Args)
    (results : List RunResult) (hempty : args.empty = none)
    (hok : test_targets env args = .ok results) :
    results.map RunResult.target = args.targets :=
  map_target_test_targets_go env args hempty args.targets results hok

/-- Counterexample to C1 as stated: with fail-fast disabled, the second
target fails to resolve (it names a directory) and the whole invocation
aborts with that error; no result record is produced for either target, so
neither appears in a final report. -/
theorem test_targets_error_aborts_run :
    test_targets envDir argsAbort = Except.error (Err.notAFile "d") := rfl

/-- Witness for C1: a one-target run that succeeds end to end. -/
theorem one_result_per_target_witness :
    ([RunResult.moduleResult "m" "m" 5 ⟨2, 1⟩].map RunResult.target) = ["m"] :=
  one_result_per_target envOk argsOk [RunResult.moduleResult "m" "m" 5 ⟨2, 1⟩]
    rfl rfl

/-- Claim C2 (amended): enabling fail-fast only adds the FAIL_FAST engine
flag (curtailing examples within each target) and later forces a non-zero
exit; every supplied target is still processed, so with no empty filter a
successful run reports as many results as targets. -/
theorem fail_fast_processes_all_targets (env : Env) (args : Args)
    (results : List RunResult) (hff : args.fail_fast = true)
    (hempty : args.empty = none)
    (hok : test_targets env args = .ok results) :
    option_flags args = (NORMALIZE_WHITESPACE ||| ELLIPSIS) ||| FAIL_FAST ∧
    results.length = args.targets.length := by
  constructor
  · simp [option_flags, hff]
  · have h := map_target_test_targets_go env args hempty args.targets results hok
    calc results.length
        = (results.map RunResult.target).length := (List.length_map _ _).symm
      _ = args.targets.length := by rw [h]

/-- Counterexample to C2 as stated: fail-fast is enabled and the first
target (bad) has a failure, yet the second target (good) is still classified
and executed — its result record, produced by running its examples, appears
in the run output. -/
theorem fail_fast_still_processes_later_targets :
    test_targets envFF argsFF =
      Except.ok [RunResult.moduleResult "bad" "bad" 1 ⟨1, 1⟩,
        RunResult.moduleResult "good" "good" 1 ⟨1, 0⟩] := rfl

/-- Witness for C2: the fail-fast run over bad and good. -/
theorem fail_fast_processes_all_targets_witness :
    option_flags argsFF = (NORMALIZE_WHITESPACE ||| ELLIPSIS) ||| FAIL_FAST ∧
    ([RunResult.moduleResult "bad" "bad" 1 ⟨1, 1⟩,
      RunResult.moduleResult "good" "good" 1 ⟨1, 0⟩] : List RunResult).length =
      argsFF.targets.length :=
  fail_fast_processes_all_targets envFF argsFF
    [RunResult.moduleResult "bad" "bad" 1 ⟨1, 1⟩,
      RunResult.moduleResult "good" "good" 1 ⟨1, 0⟩] rfl rfl rfl

/-- Claim C3 (amended): for a run that completes, the exit code is 1 exactly
when fail-fast is active and some result that survived the empty filter has
a failure, and 0 exactly otherwise (the counterexample shows a processed but
filtered-out failing target yields exit code 0). -/
theorem exit_code_spec (env : Env) (args : Args) (results : List RunResult)
    (hok : test_targets env args = .ok results) :
    (main env args = .ok 1 ↔ (args.fail_fast && has_errors results) = true) ∧
    (main env args = .ok 0 ↔ (args.fail_fast && has_errors results) = false) := by
  unfold main
  rw [hok]
  cases h : args.fail_fast && has_errors results <;> simp [h]

/-- Counterexample to C3 as stated: fail-fast is active and the single
processed target ran three examples with one failure, yet the exit code is 0
because the only-empty filter removed that target from results before the
has_errors check. -/
theorem exit_code_zero_despite_failure :
    main envExit argsExit = Except.ok 0 ∧
    envExit.runModule "m" (option_flags argsExit) = Except.ok (⟨3, 1⟩, 1) :=
  ⟨rfl, rfl⟩

/-- Witness for C3: the same environment with the filter off exits 1. -/
theorem exit_code_spec_witness :
    (main envExit argsExitAll = .ok 1 ↔
      (argsExitAll.fail_fast &&
        has_errors [RunResult.moduleResult "m" "m" 1 ⟨3, 1⟩]) = true) ∧
    (main envExit argsExitAll = .ok 0 ↔
      (argsExitAll.fail_fast &&
        has_errors [RunResult.moduleResult "m" "m" 1 ⟨3, 1⟩]) = false) :=
  exit_code_spec envExit argsExitAll
    [RunResult.moduleResult "m" "m" 1 ⟨3, 1⟩] rfl

/-- Claim C5: a target whose resolved path names no filesystem entry is
returned unchanged as a module identifier, and a target whose resolved path
exists but is not a regular file raises the not-a-file resolution error. -/
theorem resolve_target_spec (env : Env) (target : String) :
    (env.fs.pathExists (env.resolvePath target) = false →
      resolve_target env target = .ok (.module target)) ∧
    (env.fs.pathExists (env.resolvePath target) = true →
      env.fs.isFile (env.resolvePath target) = false →
      resolve_target env target = .error (.notAFile target)) := by
  constructor
  · intro h
    simp [resolve_target, h]
  · intro h1 h2
    simp [resolve_target, h1, h2]

/-- Witness for C5: in envDir, the string nope resolves to a module named
nope, and the string d names a directory and raises. -/
theorem resolve_target_spec_witness :
    resolve_target envDir "nope" = .ok (.module "nope") ∧
    resolve_target envDir "d" = .error (.notAFile "d") :=
  ⟨(resolve_target_spec envDir "nope").1 rfl,
    (resolve_target_spec envDir "d").2 rfl rfl⟩

/-- Claim C6: running with an empty-filter mode returns exactly the filter
of the unfiltered run's results, in order; the None mode keeps every result,
the only-empty mode keeps exactly those with attempted equal to zero, and
the no-empty mode keeps exactly those with attempted nonzero. -/
theorem empty_filter_spec (env : Env) (args : Args) (all : List RunResult)
    (hall : test_targets env { args with empty := none } = .ok all) :
    test_targets env args = .ok (all.filter (keepResult args.empty)) ∧
    (∀ r : RunResult, keepResult none r = true) ∧
    (∀ r : RunResult, keepResult (some true) r = (r.tests.attempted == 0)) ∧
    (∀ r : RunResult, keepResult (some false) r = (r.tests.attempted != 0)) := by
  refine ⟨go_filter env args args.targets all hall, ?_, ?_, ?_⟩
  · intro r
    rfl
  · intro r
    simp [keepResult]
  · intro r
    simp [keepResult]

/-- Witness for C6: the only-empty run over bad and good filters both
results out, and the three mode equations evaluated at the bad result. -/
theorem empty_filter_spec_witness :
    test_targets envFF argsFilter =
      .ok ([RunResult.moduleResult "bad" "bad" 1 ⟨1, 1⟩,
        RunResult.moduleResult "good" "good" 1 ⟨1, 0⟩].filter
          (keepResult argsFilter.empty)) ∧
    keepResult none (RunResult.moduleResult "bad" "bad" 1 ⟨1, 1⟩) = true ∧
    keepResult (some true) (RunResult.moduleResult "bad" "bad" 1 ⟨1, 1⟩) =
      ((RunResult.moduleResult "bad" "bad" 1 ⟨1, 1⟩).tests.attempted == 0) ∧
    keepResult (some false) (RunResult.moduleResult "bad" "bad" 1 ⟨1, 1⟩) =
      ((RunResult.moduleResult "bad" "bad" 1 ⟨1, 1⟩).tests.attempted != 0) := by
  have h := empty_filter_spec envFF argsFilter
    [RunResult.moduleResult "bad" "bad" 1 ⟨1, 1⟩,
      RunResult.moduleResult "good" "good" 1 ⟨1, 0⟩] rfl
  exact ⟨h.1, h.2.1 _, h.2.2.1 _, h.2.2.2 _⟩

/-- Claim C7: the totals are a pure reduction: empty input gives all-zero
totals, each total field is the sum of that field over the inputs, and the
totals are invariant under permutation of the inputs. -/
theorem aggregate_pure_sum :
    aggregate ([] : List RunResult) = ⟨0, 0, 0, 0⟩ ∧
    (∀ l : List RunResult,
      (aggregate l).delta_t = (l.map RunResult.delta_t).sum ∧
      (aggregate l).attempted = (l.map (fun r => r.tests.attempted)).sum ∧
      (aggregate l).passed = (l.map RunResult.tests_passed).sum ∧
      (aggregate l).failed = (l.map (fun r => r.tests.failed)).sum) ∧
    (∀ l l' : List RunResult, l.Perm l' → aggregate l = aggregate l') := by
  refine ⟨rfl, ?_, ?_⟩
  · intro l
    unfold aggregate
    rw [foldl_addResult]
    simp
  · intro l l' hperm
    unfold aggregate
    rw [foldl_addResult, foldl_addResult]
    rw [(hperm.map RunResult.delta_t).sum_eq,
      (hperm.map (fun r => r.tests.attempted)).sum_eq,
      (hperm.map RunResult.tests_passed).sum_eq,
      (hperm.map (fun r => r.tests.failed)).sum_eq]

/-- Witness for C7: the totals of a two-result list equal the totals of its
swap. -/
theorem aggregate_pure_sum_witness :
    aggregate [RunResult.moduleResult "a" "a" 1 ⟨2, 1⟩,
        RunResult.textFileResult "b" ["b"] 2 ⟨3, 0⟩] =
      aggregate [RunResult.textFileResult "b" ["b"] 2 ⟨3, 0⟩,
        RunResult.moduleResult "a" "a" 1 ⟨2, 1⟩] :=
  aggregate_pure_sum.2.2 _ _ (List.Perm.swap _ _ _)

/-- Claim C8: under the doctest engine contract, every result of a
successful run satisfies failed at most attempted, passed plus failed equals
attempted, and passed (attempted minus failed) is non-negative. -/
theorem run_result_counts_invariant (env : Env) (args : Args)
    (results : List RunResult) (r : RunResult) (hwf : Env.Wf env)
    (hok : test_targets env args = .ok results) (hmem : r ∈ results) :
    r.tests.failed ≤ r.tests.attempted ∧
    r.tests_passed + (r.tests.failed : Int) = (r.tests.attempted : Int) ∧
    0 ≤ r.tests_passed := by
  obtain ⟨t, ht⟩ := mem_test_targets_go env args args.targets results r hok hmem
  have hfa := wf_test_target env hwf t args r ht
  refine ⟨hfa, ?_, ?_⟩
  · unfold RunResult.tests_passed
    ring
  · unfold RunResult.tests_passed
    omega

/-- Witness for C8: the single result of the envOk run. -/
theorem run_result_counts_invariant_witness :
    (RunResult.moduleResult "m" "m" 5 ⟨2, 1⟩).tests.failed ≤
      (RunResult.moduleResult "m" "m" 5 ⟨2, 1⟩).tests.attempted ∧
    (RunResult.moduleResult "m" "m" 5 ⟨2, 1⟩).tests_passed +
      ((RunResult.moduleResult "m" "m" 5 ⟨2, 1⟩).tests.failed : Int) =
      ((RunResult.moduleResult "m" "m" 5 ⟨2, 1⟩).tests.attempted : Int) ∧
    0 ≤ (RunResult.moduleResult "m" "m" 5 ⟨2, 1⟩).tests_passed :=
  run_result_counts_invariant envOk argsOk
    [RunResult.moduleResult "m" "m" 5 ⟨2, 1⟩]
    (RunResult.moduleResult "m" "m" 5 ⟨2, 1⟩)
    ⟨fun name flags tr dt h => by
        injection h with h2
        injection h2 with ha hb
        subst ha
        decide,
      fun p flags => Nat.le_refl 0⟩
    rfl (List.mem_singleton.mpr rfl)

/-- Claim C9: the engine option flags always contain whitespace
normalization and ellipsis, depend on nothing but the fail-fast option, and
take exactly one of the two values with and without the FAIL_FAST bit. -/
theorem comparison_flags_fixed (args : Args) :
    option_flags args &&& NORMALIZE_WHITESPACE = NORMALIZE_WHITESPACE ∧
    option_flags args &&& ELLIPSIS = ELLIPSIS ∧
    option_flags args = option_flags ⟨0, args.fail_fast, none, false, []⟩ ∧
    (option_flags args = NORMALIZE_WHITESPACE ||| ELLIPSIS ∨
      option_flags args = (NORMALIZE_WHITESPACE ||| ELLIPSIS) ||| FAIL_FAST) := by
  cases h : args.fail_fast <;> simp only [option_flags, h] <;> decide

/-- Claim C10: percent returns the dim placeholder dash exactly when the
denominator is zero; every nonzero denominator takes the division branch and
produces a colored percentage instead. -/
theorem percent_placeholder_iff (n d : ℚ) :
    percent n d = RichText.dim "-" ↔ d = 0 := by
  by_cases hd : d = 0
  · simp [percent, hd]
  · simp only [percent, if_neg hd]
    constructor
    · intro h
      split at h
      · exact RichText.noConfusion h
      · exact RichText.noConfusion h
    · intro h
      exact absurd h hd

/-- Witness for C9: the flags of a concrete fail-fast-off run. -/
theorem comparison_flags_fixed_witness :
    option_flags argsOk &&& NORMALIZE_WHITESPACE = NORMALIZE_WHITESPACE ∧
    option_flags argsOk &&& ELLIPSIS = ELLIPSIS ∧
    option_flags argsOk = option_flags ⟨0, argsOk.fail_fast, none, false, []⟩ ∧
    (option_flags argsOk = NORMALIZE_WHITESPACE ||| ELLIPSIS ∨
      option_flags argsOk =
        (NORMALIZE_WHITESPACE ||| ELLIPSIS) ||| FAIL_FAST) :=
  comparison_flags_fixed argsOk

/-- Witness for C10: the placeholder appears at denominator zero and not at
denominator two. -/
theorem percent_placeholder_iff_witness :
    (percent 1 0 = RichText.dim "-" ↔ (0 : ℚ) = 0) ∧
    (percent 1 2 = RichText.dim "-" ↔ (2 : ℚ) = 0) :=
  ⟨percent_placeholder_iff 1 0, percent_placeholder_iff 1 2⟩

end DoctorTesterson
